import Mathlib

/-!
Verification development for the `terraform-provider-ranger` repository.

This file shallowly embeds the Policy Reconciliation & Model Translation
engine of the provider (the resource file defining `convertModelToPolicy`,
`convertPolicyToModel`, `convertPolicyItemModel`, `convertPolicyItem`,
`parseInt64`, and the `Create`/`Read`/`Update` reconciliation steps, plus
`getPolicyByServiceAndName` from the data source) and proves properties of
the embedding.

Modelling notes:
 - Terraform framework nullable scalars (`types.String`, `types.Bool`,
   `types.Int64`) are embedded as `Option`; `ValueString`/`ValueBool`/
   `ValueInt64` return the zero value on null, which `valueString` etc.
   reproduce.  The framework's "unknown" state behaves like null under
   these accessors and is not modelled separately.
 - Go slices are nilable, and the code distinguishes nil (omitted on the
   wire) from empty; a Go slice of `α` is embedded as `Option (List α)`
   (`none` = nil).  `goList` is the nil-tolerant view used by `range`
   loops and `len`.
 - Go maps are embedded as association lists with unique keys kept in
   insertion order; `assocSet` is Go map assignment (replace in place or
   append) and `assocLookup` is Go map indexing.  Go's map iteration
   order is unspecified, so theorems about map-derived lists only claim
   order-insensitive facts (permutation / membership).
 - Go `interface {}` values occurring in wire conditions are embedded as
   the inductive `GoVal`; Go type assertions `.(string)` and
   `.([]interface {})` become `GoVal.toStr` / `GoVal.toArr`.  A Go
   `[]string` stored in an `interface {}` is `GoVal.strList` and does NOT
   satisfy the `[]interface {}` assertion, exactly as in Go.
 - `diag.Diagnostics` is embedded as `List String` (error summaries); the
   translator functions declare a diagnostics collection and never add to
   it, which the embedding mirrors literally.
-/

namespace Ranger

/-- Terraform `types.String`: null or a value. -/
abbrev TFString := Option String

/-- Terraform `types.Bool`: null or a value. -/
abbrev TFBool := Option Bool

/-- Terraform `types.Int64`: null or a value. -/
abbrev TFInt := Option Int

/-- `types.String.ValueString()`: the value, or `""` when null. -/
def valueString (s : TFString) : String := s.getD ""

/-- `types.Bool.ValueBool()`: the value, or `false` when null. -/
def valueBool (b : TFBool) : Bool := b.getD false

/-- `types.Int64.ValueInt64()`: the value, or `0` when null. -/
def valueInt64 (i : TFInt) : Int := i.getD 0

/-- A Go slice: `none` is the nil slice, `some l` a non-nil slice. -/
abbrev GoSlice (α : Type) := Option (List α)

/-- The elements of a Go slice as seen by `range` and `len` (nil acts empty). -/
def goList {α : Type} (s : GoSlice α) : List α := s.getD []

/-- Go map indexing `m[k]` on an association-list map. -/
def assocLookup {α : Type} : List (String × α) → String → Option α
  | [], _ => none
  | (k, v) :: rest, key => if k = key then some v else assocLookup rest key

/-- Go map assignment `m[k] = v`: replace the binding in place, or append. -/
def assocSet {α : Type} : List (String × α) → String → α → List (String × α)
  | [], key, v => [(key, v)]
  | (k, v₀) :: rest, key, v =>
      if k = key then (key, v) :: rest else (k, v₀) :: assocSet rest key v

/-- A Go `interface {}` value as it occurs in wire condition maps. -/
inductive GoVal : Type where
  /-- a Go `string` -/
  | str : String → GoVal
  /-- a Go `[]string` (as produced by `convertPolicyItemModel`) -/
  | strList : List String → GoVal
  /-- a Go `[]interface {}` (as produced by JSON decoding) -/
  | arr : List GoVal → GoVal
  /-- any other dynamic value -/
  | other : GoVal

namespace GoVal

/-- The Go type assertion `v.(string)`. -/
def toStr : GoVal → Option String
  | .str s => some s
  | _ => none

/-- The Go type assertion `v.([]interface \x7b\x7d)`. -/
def toArr : GoVal → Option (List GoVal)
  | .arr vs => some vs
  | _ => none

end GoVal

/-- One wire condition entry: a Go `map[string]interface \x7b\x7d`. -/
abbrev CondMap := List (String × GoVal)

/-- `diag.Diagnostics`: the list of collected error summaries. -/
abbrev Diagnostics := List String

/-! ## Wire model (the Ranger policy JSON structure) -/

/-- `PolicyResources`: a resource in the Ranger policy JSON. -/
structure PolicyResources : Type where
  values : GoSlice String
  isExclude : Bool
  isRecursive : Bool
deriving DecidableEq, Repr

/-- `Access`: a permission in the Ranger policy JSON. -/
structure Access : Type where
  accessType : String
  isAllowed : Bool
deriving DecidableEq, Repr

/-- `PolicyItem`: a policy item (allow/deny rule) in the Ranger policy JSON. -/
structure PolicyItem : Type where
  users : GoSlice String
  groups : GoSlice String
  roles : GoSlice String
  accesses : GoSlice Access
  delegateAdmin : Bool
  conditions : GoSlice CondMap

/-- `Policy`: the Apache Ranger policy JSON structure. -/
structure Policy : Type where
  id : Int
  name : String
  service : String
  description : String
  isEnabled : Bool
  isAuditEnabled : Bool
  resources : Option (List (String × PolicyResources))
  policyItems : GoSlice PolicyItem
  denyPolicyItems : GoSlice PolicyItem
  policyType : Int

/-! ## Declarative model (the Terraform resource model) -/

/-- `RangerPolicyResourcesModel`: a resource entry in the Terraform model. -/
structure RangerPolicyResourcesModel : Type where
  resType : TFString
  values : GoSlice TFString
  isExclude : TFBool
  isRecursive : TFBool
deriving DecidableEq, Repr

/-- `RangerPolicyItemModel`: an allow/deny rule in the Terraform model.
`conditions` is a Go `map[string][]types.String` (nilable). -/
structure RangerPolicyItemModel : Type where
  users : GoSlice TFString
  groups : GoSlice TFString
  roles : GoSlice TFString
  permissions : GoSlice TFString
  delegateAdmin : TFBool
  conditions : Option (List (String × GoSlice TFString))
deriving DecidableEq, Repr

/-- `RangerPolicyResourceModel`: the Terraform resource schema model. -/
structure RangerPolicyResourceModel : Type where
  id : TFString
  name : TFString
  service : TFString
  description : TFString
  isEnabled : TFBool
  isAuditEnabled : TFBool
  resources : GoSlice RangerPolicyResourcesModel
  policyItems : GoSlice RangerPolicyItemModel
  denyItems : GoSlice RangerPolicyItemModel
  policyType : TFInt
deriving DecidableEq, Repr

/-! ## Model Translator -/

/-- The `[]types.String → []string` conversion loop used by
`convertPolicyItemModel` for users, groups and roles: when the declared
list is non-empty, build the string slice; otherwise leave the wire
field nil. -/
def convertStringList (xs : GoSlice TFString) : GoSlice String :=
  if 0 < (goList xs).length then some ((goList xs).map valueString) else none

/-- `convertPolicyItemModel`: converts a Terraform policy item model to a
Ranger wire policy item.  Never adds diagnostics. -/
def convertPolicyItemModel (itemModel : RangerPolicyItemModel) :
    PolicyItem × Diagnostics :=
  let users := convertStringList itemModel.users
  let groups := convertStringList itemModel.groups
  let roles := convertStringList itemModel.roles
  let accesses : GoSlice Access :=
    if 0 < (goList itemModel.permissions).length then
      some ((goList itemModel.permissions).map
        (fun perm => { accessType := valueString perm, isAllowed := true }))
    else none
  let conditions : GoSlice CondMap :=
    if 0 < (goList itemModel.conditions).length then
      some ((goList itemModel.conditions).map (fun cv =>
        [("type", GoVal.str cv.1),
         ("values", GoVal.strList ((goList cv.2).map valueString))]))
    else none
  ({ users := users, groups := groups, roles := roles, accesses := accesses,
     delegateAdmin := valueBool itemModel.delegateAdmin,
     conditions := conditions }, [])

/-- The body of the resources loop of `convertModelToPolicy`: one declared
resource entry as a wire `PolicyResources` value. -/
def convertResourceModel (res : RangerPolicyResourcesModel) : PolicyResources :=
  { values := some ((goList res.values).map valueString),
    isExclude := valueBool res.isExclude,
    isRecursive := valueBool res.isRecursive }

/-- `convertModelToPolicy`: converts a Terraform model to a Ranger wire
policy.  Resources are written into a freshly made map keyed by the
declared type (`policy.Resources[resType] = ...`); allow/deny item lists
are emitted only when non-empty; item diagnostics are appended in order. -/
def convertModelToPolicy (model : RangerPolicyResourceModel) :
    Policy × Diagnostics :=
  let description := if model.description ≠ none then valueString model.description else ""
  let resources := (goList model.resources).foldl
    (fun acc res => assocSet acc (valueString res.resType) (convertResourceModel res)) []
  let allowPairs := (goList model.policyItems).map convertPolicyItemModel
  let denyPairs := (goList model.denyItems).map convertPolicyItemModel
  let policyItems : GoSlice PolicyItem :=
    if 0 < (goList model.policyItems).length then some (allowPairs.map Prod.fst) else none
  let denyPolicyItems : GoSlice PolicyItem :=
    if 0 < (goList model.denyItems).length then some (denyPairs.map Prod.fst) else none
  let diags : Diagnostics :=
    (allowPairs.foldl (fun d p => d ++ p.2) []) ++
    (denyPairs.foldl (fun d p => d ++ p.2) [])
  ({ id := 0, name := valueString model.name, service := valueString model.service,
     description := description,
     isEnabled := valueBool model.isEnabled,
     isAuditEnabled := valueBool model.isAuditEnabled,
     resources := some resources,
     policyItems := policyItems, denyPolicyItems := denyPolicyItems,
     policyType := valueInt64 model.policyType }, diags)

/-- The body of the conditions loop of `convertPolicyItem`: process one
wire condition map against the accumulated declarative conditions map.
`condition["type"]` must assert to `string` and `condition["values"]`
to `[]interface \x7b\x7d`, else the entry is skipped (`continue`); string
elements of the values array are collected and the key is assigned. -/
def stepCond (acc : List (String × GoSlice TFString)) (condition : CondMap) :
    List (String × GoSlice TFString) :=
  match (assocLookup condition "type").bind GoVal.toStr with
  | none => acc
  | some condType =>
    match (assocLookup condition "values").bind GoVal.toArr with
    | none => acc
    | some condValues =>
      assocSet acc condType
        (some (condValues.filterMap (fun v => (GoVal.toStr v).map some)))

/-- `convertPolicyItem`: converts a Ranger wire policy item to a Terraform
policy item model.  All declarative lists are freshly made (never nil);
only accesses with `isAllowed` contribute permissions; conditions are
folded into a freshly made map.  Never adds diagnostics. -/
def convertPolicyItem (item : PolicyItem) : RangerPolicyItemModel × Diagnostics :=
  let users : GoSlice TFString := some ((goList item.users).map (fun u => some u))
  let groups : GoSlice TFString := some ((goList item.groups).map (fun g => some g))
  let roles : GoSlice TFString := some ((goList item.roles).map (fun r => some r))
  let permissions : GoSlice TFString :=
    some (((goList item.accesses).filter (fun a => a.isAllowed)).map
      (fun a => (some a.accessType : TFString)))
  let conditions := some ((goList item.conditions).foldl stepCond [])
  ({ users := users, groups := groups, roles := roles, permissions := permissions,
     delegateAdmin := some item.delegateAdmin, conditions := conditions }, [])

/-- One wire resources map entry as a declarative resource record (the
resources loop of `convertPolicyToModel`). -/
def convertResourceEntry (e : String × PolicyResources) : RangerPolicyResourcesModel :=
  { resType := some e.1,
    values := some ((goList e.2.values).map (fun v => (some v : TFString))),
    isExclude := some e.2.isExclude,
    isRecursive := some e.2.isRecursive }

/-- `convertPolicyToModel`: converts a Ranger wire policy to a Terraform
model.  The id is formatted with `%d`; resources/policy items/deny items
are freshly made lists (never nil); item diagnostics are appended in
order. -/
def convertPolicyToModel (policy : Policy) :
    RangerPolicyResourceModel × Diagnostics :=
  let resources : GoSlice RangerPolicyResourcesModel :=
    some ((goList policy.resources).map convertResourceEntry)
  let allowPairs := (goList policy.policyItems).map convertPolicyItem
  let denyPairs := (goList policy.denyPolicyItems).map convertPolicyItem
  let diags : Diagnostics :=
    (allowPairs.foldl (fun d p => d ++ p.2) []) ++
    (denyPairs.foldl (fun d p => d ++ p.2) [])
  ({ id := some (toString policy.id), name := some policy.name,
     service := some policy.service, description := some policy.description,
     isEnabled := some policy.isEnabled, isAuditEnabled := some policy.isAuditEnabled,
     resources := resources,
     policyItems := some (allowPairs.map Prod.fst),
     denyItems := some (denyPairs.map Prod.fst),
     policyType := some policy.policyType }, diags)

/-! ## `parseInt64` (`fmt.Sscanf(s, "%d", &i)`) -/

/-- Decimal value of a digit run. -/
def digitsVal (ds : List Char) : Nat :=
  ds.foldl (fun acc c => acc * 10 + (c.toNat - 48)) 0

/-- `parseInt64`: parses an `int64` from a string the way
`fmt.Sscanf(s, "%d", &i)` does: leading white space is skipped, an
optional sign is consumed, at least one decimal digit is required, the
value must fit in an `int64`, and trailing characters are ignored. -/
def parseInt64 (s : String) : Except String Int :=
  let cs := s.toList.dropWhile (fun c => c = ' ' ∨ c = '\t' ∨ c = '\n' ∨ c = '\r')
  let signed : Bool × List Char :=
    match cs with
    | '-' :: rest => (true, rest)
    | '+' :: rest => (false, rest)
    | rest => (false, rest)
  let ds := signed.2.takeWhile Char.isDigit
  if ds.isEmpty then Except.error "expected integer"
  else
    let n : Int := if signed.1 then -(digitsVal ds : Int) else (digitsVal ds : Int)
    if n < -(2 ^ 63) ∨ 2 ^ 63 - 1 < n then Except.error "value out of range"
    else Except.ok n

/-! ## Remote Policy Gateway and Reconciler steps

The HTTP exchange of each operation is embedded by passing the response
(status code, and the decoded body when it decodes, `none` on a decode
failure) as an argument; request construction and transport errors are
outside the embedded fragment.  Each outcome type has exactly one
constructor that writes declarative state (`success`); every other
constructor models adding an error diagnostic and returning, which
leaves the prior state untouched. -/

/-- `getPolicyByServiceAndName` (data source), from the response on: a
non-200 status or an undecodable body is an error; otherwise the first
decoded policy whose name equals the requested name exactly is returned,
and a not-found error is reported when none matches. -/
def getPolicyByServiceAndName (service : String) (name : String)
    (status : Nat) (body : Option (List Policy)) : Except String Policy :=
  if status ≠ 200 then
    Except.error ("API returned unexpected status code: " ++ toString status)
  else
    match body with
    | none => Except.error "Could not decode API response"
    | some policies =>
      match policies.find? (fun policy => policy.name = name) with
      | some policy => Except.ok policy
      | none =>
        Except.error ("No policy found with service '" ++ service ++
          "' and name '" ++ name ++ "'")

/-- Outcome of the `Create` reconciliation step. -/
inductive CreateOutcome : Type where
  /-- a diagnostic error was added and the function returned without
  writing state -/
  | failure : String → CreateOutcome
  /-- `resp.State.Set` was called with this model -/
  | success : RangerPolicyResourceModel → CreateOutcome

/-- `Create`, from the plan on: convert the plan, POST it, require status
200 or 201, decode the created policy, and write back the plan with only
`ID` replaced by the server-issued id formatted with `%d`. -/
def createStep (plan : RangerPolicyResourceModel)
    (status : Nat) (body : Option Policy) : CreateOutcome :=
  let conv := convertModelToPolicy plan
  if conv.2 ≠ [] then CreateOutcome.failure "conversion diagnostics"
  else if status ≠ 200 ∧ status ≠ 201 then
    CreateOutcome.failure ("API returned unexpected status code: " ++ toString status)
  else
    match body with
    | none => CreateOutcome.failure "Could not decode API response"
    | some createdPolicy =>
      CreateOutcome.success { plan with id := some (toString createdPolicy.id) }

/-- Outcome of the `Read` reconciliation step. -/
inductive ReadOutcome : Type where
  /-- `resp.State.RemoveResource` was called (not an error) -/
  | removeResource : ReadOutcome
  /-- a diagnostic error was added and the function returned without
  writing state -/
  | failure : String → ReadOutcome
  /-- `resp.State.Set` was called with this model -/
  | success : RangerPolicyResourceModel → ReadOutcome

/-- `Read`, from the stored state on: a null id signals removal with no
network call; otherwise GET by id, a 404 signals removal, any other
non-200 status is a fatal error carrying the status code, and a 200
response is decoded and fully converted into new declarative state. -/
def readStep (state : RangerPolicyResourceModel)
    (status : Nat) (body : Option Policy) : ReadOutcome :=
  if state.id = none then ReadOutcome.removeResource
  else if status = 404 then ReadOutcome.removeResource
  else if status ≠ 200 then
    ReadOutcome.failure ("API returned unexpected status code: " ++ toString status)
  else
    match body with
    | none => ReadOutcome.failure "Could not decode API response"
    | some policy =>
      let conv := convertPolicyToModel policy
      if conv.2 ≠ [] then ReadOutcome.failure "conversion diagnostics"
      else ReadOutcome.success conv.1

/-- Outcome of the `Update` reconciliation step. -/
inductive UpdateOutcome : Type where
  /-- a diagnostic error was added before any network request; no state
  was written -/
  | validationFailure : String → UpdateOutcome
  /-- the PUT was issued but a diagnostic error was added afterwards; no
  state was written -/
  | failure : String → UpdateOutcome
  /-- `resp.State.Set` was called with this model -/
  | success : RangerPolicyResourceModel → UpdateOutcome

/-- `Update`, from the plan on: convert the plan, parse the stored id
string with `parseInt64` (failure is a local error raised before the PUT
is built), then PUT; require status 200 and a decodable body, and write
back the plan itself.  The returned flag records whether the PUT request
was issued (the point of no return in the source, reached only after
`parseInt64` succeeds). -/
def updateStep (plan : RangerPolicyResourceModel)
    (status : Nat) (body : Option Policy) : Bool × UpdateOutcome :=
  let conv := convertModelToPolicy plan
  if conv.2 ≠ [] then (false, UpdateOutcome.validationFailure "conversion diagnostics")
  else
    match parseInt64 (valueString plan.id) with
    | Except.error e =>
        (false, UpdateOutcome.validationFailure ("Could not parse policy ID: " ++ e))
    | Except.ok _ =>
      if status ≠ 200 then
        (true, UpdateOutcome.failure ("API returned unexpected status code: " ++ toString status))
      else
        match body with
        | none => (true, UpdateOutcome.failure "Could not decode API response")
        | some _ => (true, UpdateOutcome.success plan)

/-! ## Normalisation and well-formedness predicates used in statements -/

/-- The order-preserved, nil-collapsed view of a declarative resource
record: set-equality on a resource entry compares the type, the values
in order (nil and empty slices both read as `[]`), and the flags. -/
def normRes (r : RangerPolicyResourcesModel) :
    TFString × List TFString × TFBool × TFBool :=
  (r.resType, goList r.values, r.isExclude, r.isRecursive)

/-- The order-preserved, nil-collapsed view of a declarative rule item:
principals and permissions in order, the delegate flag, and the
conditions map as an association list. -/
def normItem (it : RangerPolicyItemModel) :
    List TFString × List TFString × List TFString × List TFString × TFBool ×
      List (String × GoSlice TFString) :=
  (goList it.users, goList it.groups, goList it.roles, goList it.permissions,
   it.delegateAdmin, goList it.conditions)

/-- A declarative rule item with no null principal/permission elements
and a non-null delegate flag. -/
def itemKnown (it : RangerPolicyItemModel) : Bool :=
  (goList it.users).all Option.isSome && (goList it.groups).all Option.isSome &&
  (goList it.roles).all Option.isSome && (goList it.permissions).all Option.isSome &&
  it.delegateAdmin.isSome

/-- A declarative resource record with a non-null type, non-null value
elements and non-null flags. -/
def resourceKnown (r : RangerPolicyResourcesModel) : Bool :=
  r.resType.isSome && (goList r.values).all Option.isSome &&
  r.isExclude.isSome && r.isRecursive.isSome

/-- A fully specified declarative policy: all scalar attributes non-null,
all resource records and rule items fully specified. -/
def modelKnown (m : RangerPolicyResourceModel) : Bool :=
  m.name.isSome && m.service.isSome && m.description.isSome &&
  m.isEnabled.isSome && m.isAuditEnabled.isSome && m.policyType.isSome &&
  (goList m.resources).all resourceKnown &&
  (goList m.policyItems).all itemKnown && (goList m.denyItems).all itemKnown

/-- No rule item of the model declares any condition. -/
def modelNoConditions (m : RangerPolicyResourceModel) : Bool :=
  (goList m.policyItems).all (fun it => (goList it.conditions).isEmpty) &&
  (goList m.denyItems).all (fun it => (goList it.conditions).isEmpty)

/-- Set-equality of the declarative→wire→declarative round trip of `m`
with `m` itself, on every declared field: scalar fields literally equal,
resource entries equal as a multiset of normalised records (their order
comes from an unordered wire map), rule item lists equal in order up to
normalisation. -/
def roundtripAgrees (m : RangerPolicyResourceModel) : Prop :=
  let rt := (convertPolicyToModel (convertModelToPolicy m).1).1
  rt.name = m.name ∧ rt.service = m.service ∧ rt.description = m.description ∧
  rt.isEnabled = m.isEnabled ∧ rt.isAuditEnabled = m.isAuditEnabled ∧
  rt.policyType = m.policyType ∧
  List.Perm ((goList rt.resources).map normRes) ((goList m.resources).map normRes) ∧
  (goList rt.policyItems).map normItem = (goList m.policyItems).map normItem ∧
  (goList rt.denyItems).map normItem = (goList m.denyItems).map normItem

/-! ## Concrete example inputs used by witnesses and counterexamples -/

/-- A declared resource entry for an HDFS path. -/
def exampleRes : RangerPolicyResourcesModel :=
  { resType := some "path", values := some [some "/a"],
    isExclude := some false, isRecursive := some true }

/-- An allow rule granting read and write, with no conditions. -/
def examplePermItem : RangerPolicyItemModel :=
  { users := some [some "u"], groups := some [], roles := none,
    permissions := some [some "read", some "write"],
    delegateAdmin := some false, conditions := some [] }

/-- A fully specified plan with one resource and one allow rule. -/
def examplePlan : RangerPolicyResourceModel :=
  { id := none, name := some "p", service := some "hdfs", description := some "d",
    isEnabled := some true, isAuditEnabled := some true,
    resources := some [exampleRes],
    policyItems := some [examplePermItem], denyItems := none,
    policyType := some 0 }

/-- `examplePlan` with a declared condition on its allow rule. -/
def exampleConditionModel : RangerPolicyResourceModel :=
  { examplePlan with
    policyItems := some [{ examplePermItem with
      conditions := some [("where", some [some "x"])] }] }

/-- `examplePlan` with the same resource component declared twice with
different values and flags. -/
def exampleDupModel : RangerPolicyResourceModel :=
  { examplePlan with resources := some [
      { resType := some "path", values := some [some "/a"],
        isExclude := some false, isRecursive := some false },
      { resType := some "path", values := some [some "/b"],
        isExclude := some true, isRecursive := some false }] }

/-- `examplePlan` with a stored numeric id. -/
def examplePlanWithId : RangerPolicyResourceModel :=
  { examplePlan with id := some "100" }

/-- `examplePlan` with a stored id that is not a decimal integer. -/
def exampleBadIdPlan : RangerPolicyResourceModel :=
  { examplePlan with id := some "abc" }

/-- A wire policy named `foo_v2`, as returned by the search endpoint. -/
def examplePolicyFooV2 : Policy :=
  { id := 7, name := "foo_v2", service := "hive", description := "",
    isEnabled := true, isAuditEnabled := true, resources := some [],
    policyItems := none, denyPolicyItems := none, policyType := 0 }

/-- A wire policy as echoed by the server on create (id 42). -/
def exampleCreatedPolicy : Policy :=
  { id := 42, name := "p-normalized", service := "hdfs", description := "srv",
    isEnabled := false, isAuditEnabled := false, resources := some [],
    policyItems := none, denyPolicyItems := none, policyType := 2 }

/-- A wire rule item whose accesses arrive out of declaration order and
include an `isAllowed=false` entry. -/
def exampleWireItem : PolicyItem :=
  { users := some ["u"], groups := none, roles := none,
    accesses := some [{ accessType := "write", isAllowed := true },
                      { accessType := "read", isAllowed := true },
                      { accessType := "exec", isAllowed := false }],
    delegateAdmin := false, conditions := none }

/-- A wire rule item with one condition entry whose values array holds a
string and a malformed non-string element, and a second entry whose type
field is not a string. -/
def exampleCondWireItem : PolicyItem :=
  { users := none, groups := none, roles := none, accesses := none,
    delegateAdmin := false,
    conditions := some
      [[("type", GoVal.str "c"),
        ("values", GoVal.arr [GoVal.str "a", GoVal.arr []])],
       [("type", GoVal.arr []), ("values", GoVal.arr [GoVal.str "z"])]] }

/-- A declarative rule item whose list attributes are all empty or nil. -/
def exampleEmptyItem : RangerPolicyItemModel :=
  { users := some [], groups := none, roles := some [], permissions := some [],
    delegateAdmin := some false, conditions := none }

/-- A declarative model with no allow items and no deny items. -/
def exampleEmptyModel : RangerPolicyResourceModel :=
  { examplePlan with policyItems := some [], denyItems := some [] }

/-! ## Helper lemmas -/

theorem convertPolicyItemModel_snd (it : RangerPolicyItemModel) :
    (convertPolicyItemModel it).2 = [] := rfl

theorem convertPolicyItem_snd (it : PolicyItem) :
    (convertPolicyItem it).2 = [] := rfl

theorem foldl_append_snd_nil {β : Type} (l : List (β × Diagnostics))
    (acc : Diagnostics) (h : ∀ p ∈ l, p.2 = []) :
    l.foldl (fun d p => d ++ p.2) acc = acc := by
  induction l generalizing acc with
  | nil => rfl
  | cons p rest ih =>
    simp only [List.foldl_cons]
    rw [h p (by simp), List.append_nil]
    exact ih acc (fun q hq => h q (by simp [hq]))

theorem convertModelToPolicy_snd (m : RangerPolicyResourceModel) :
    (convertModelToPolicy m).2 = [] := by
  simp only [convertModelToPolicy]
  rw [foldl_append_snd_nil, foldl_append_snd_nil, List.append_nil]
  · intro p hp
    rcases List.mem_map.mp hp with ⟨it, -, rfl⟩
    rfl
  · intro p hp
    rcases List.mem_map.mp hp with ⟨it, -, rfl⟩
    rfl

theorem convertPolicyToModel_snd (p : Policy) :
    (convertPolicyToModel p).2 = [] := by
  simp only [convertPolicyToModel]
  rw [foldl_append_snd_nil, foldl_append_snd_nil, List.append_nil]
  · intro q hq
    rcases List.mem_map.mp hq with ⟨it, -, rfl⟩
    rfl
  · intro q hq
    rcases List.mem_map.mp hq with ⟨it, -, rfl⟩
    rfl

@[simp] theorem goList_some {α : Type} (l : List α) : goList (some l) = l := rfl

@[simp] theorem goList_none {α : Type} : goList (none : GoSlice α) = [] := rfl

@[simp] theorem valueString_some (s : String) : valueString (some s) = s := rfl

@[simp] theorem valueBool_some (b : Bool) : valueBool (some b) = b := rfl

@[simp] theorem valueInt64_some (i : Int) : valueInt64 (some i) = i := rfl

theorem assocLookup_assocSet {α : Type} (l : List (String × α)) (k key : String)
    (v : α) :
    assocLookup (assocSet l k v) key =
      if k = key then some v else assocLookup l key := by
  induction l with
  | nil => simp [assocSet, assocLookup]
  | cons p rest ih =>
    obtain ⟨k₀, v₀⟩ := p
    by_cases h₀ : k₀ = k
    · subst h₀
      by_cases hk : k₀ = key <;> simp [assocSet, assocLookup, hk]
    · by_cases hk0 : k₀ = key
      · subst hk0
        have hk : ¬ k = k₀ := fun h => h₀ h.symm
        simp [assocSet, assocLookup, h₀, hk]
      · simp [assocSet, assocLookup, h₀, hk0, ih]

theorem assocLookup_resources_foldl (rs : List RangerPolicyResourcesModel)
    (acc : List (String × PolicyResources)) (t : String) :
    assocLookup (rs.foldl (fun a res =>
        assocSet a (valueString res.resType) (convertResourceModel res)) acc) t =
      match rs.reverse.find? (fun r => valueString r.resType = t) with
      | some r => some (convertResourceModel r)
      | none => assocLookup acc t := by
  induction rs generalizing acc with
  | nil => rfl
  | cons r rest ih =>
    simp only [List.foldl_cons, List.reverse_cons, List.find?_append]
    rw [ih]
    cases hfind : rest.reverse.find? (fun r => valueString r.resType = t) with
    | some r' => simp
    | none =>
      rw [assocLookup_assocSet]
      by_cases ht : valueString r.resType = t <;> simp [List.find?, ht]

/-! ## Claims -/

/-- Claim C9: model translation never fails in either direction — both
top-level translators and both item translators return an empty
diagnostics collection on every input. -/
theorem claim_C9_translation_never_fails :
    (∀ m : RangerPolicyResourceModel, (convertModelToPolicy m).2 = []) ∧
    (∀ p : Policy, (convertPolicyToModel p).2 = []) ∧
    (∀ it : RangerPolicyItemModel, (convertPolicyItemModel it).2 = []) ∧
    (∀ it : PolicyItem, (convertPolicyItem it).2 = []) :=
  ⟨convertModelToPolicy_snd, convertPolicyToModel_snd,
   convertPolicyItemModel_snd, convertPolicyItem_snd⟩

/-- Claim C2: name-based lookup applies client-side exact-name matching
over the decoded policy list — a policy is returned only if its name
equals the requested name exactly, and whenever no element matches
exactly the lookup reports the not-found failure. -/
theorem claim_C2_exact_name_lookup :
    (∀ (service name : String) (status : Nat) (body : Option (List Policy))
        (p : Policy),
        getPolicyByServiceAndName service name status body = Except.ok p →
        p.name = name) ∧
    (∀ (service name : String) (policies : List Policy),
        (∀ p ∈ policies, p.name ≠ name) →
        getPolicyByServiceAndName service name 200 (some policies) =
          Except.error ("No policy found with service '" ++ service ++
            "' and name '" ++ name ++ "'")) := by
  constructor
  · intro service name status body p h
    unfold getPolicyByServiceAndName at h
    by_cases hs : status = 200
    case neg => simp [hs] at h
    · subst hs
      simp only [ne_eq, not_true_eq_false, if_false, reduceIte] at h
      match body with
      | none => simp at h
      | some policies =>
        simp only at h
        cases hfind : policies.find? (fun q => q.name = name) with
        | none => rw [hfind] at h; simp at h
        | some q =>
          rw [hfind] at h
          have hq := List.find?_some hfind
          cases h
          exact of_decide_eq_true hq
  · intro service name policies hnone
    have hfind : policies.find? (fun q => q.name = name) = none := by
      rw [List.find?_eq_none]
      intro q hq
      simpa using hnone q hq
    unfold getPolicyByServiceAndName
    simp [hfind]

/-- Witness for C2: searching for `foo` over a decoded list containing
only a policy named `foo_v2` yields the not-found failure, never the
`foo_v2` record. -/
theorem claim_C2_witness :
    getPolicyByServiceAndName "hive" "foo" 200 (some [examplePolicyFooV2]) =
      Except.error ("No policy found with service '" ++ "hive" ++
        "' and name '" ++ "foo" ++ "'") :=
  claim_C2_exact_name_lookup.2 "hive" "foo" [examplePolicyFooV2]
    (by
      intro p hp
      rw [List.mem_singleton] at hp
      subst hp
      decide)

/-- Claim C3: on a successful create (status 200 or 201 and a decodable
body), the state written back is the plan with only the id replaced by
the server-issued id; every other declared field equals the plan's. -/
theorem claim_C3_create_only_id (plan : RangerPolicyResourceModel)
    (createdPolicy : Policy) (status : Nat)
    (hstatus : status = 200 ∨ status = 201) :
    ∃ m, createStep plan status (some createdPolicy) = CreateOutcome.success m ∧
      m.id = some (toString createdPolicy.id) ∧
      m.name = plan.name ∧ m.service = plan.service ∧
      m.description = plan.description ∧ m.isEnabled = plan.isEnabled ∧
      m.isAuditEnabled = plan.isAuditEnabled ∧ m.resources = plan.resources ∧
      m.policyItems = plan.policyItems ∧ m.denyItems = plan.denyItems ∧
      m.policyType = plan.policyType := by
  refine ⟨{ plan with id := some (toString createdPolicy.id) }, ?_,
    rfl, rfl, rfl, rfl, rfl, rfl, rfl, rfl, rfl, rfl⟩
  have hcond : ¬ (status ≠ 200 ∧ status ≠ 201) := by
    rcases hstatus with h | h <;> simp [h]
  simp only [createStep, convertModelToPolicy_snd]
  simp [hcond]

/-- Witness for C3: creating `examplePlan` against a server echo that
renormalises every field records only the id `42`. -/
theorem claim_C3_witness :
    ((200 : Nat) = 200 ∨ (200 : Nat) = 201) ∧
    ∃ m, createStep examplePlan 200 (some exampleCreatedPolicy) =
        CreateOutcome.success m ∧
      m.id = some (toString exampleCreatedPolicy.id) ∧
      m.name = examplePlan.name ∧ m.service = examplePlan.service ∧
      m.description = examplePlan.description ∧
      m.isEnabled = examplePlan.isEnabled ∧
      m.isAuditEnabled = examplePlan.isAuditEnabled ∧
      m.resources = examplePlan.resources ∧
      m.policyItems = examplePlan.policyItems ∧
      m.denyItems = examplePlan.denyItems ∧
      m.policyType = examplePlan.policyType :=
  ⟨Or.inl rfl,
   claim_C3_create_only_id examplePlan exampleCreatedPolicy 200 (Or.inl rfl)⟩

/-- Claim C4: for a read with an id present, a 404 response signals
removal of the resource (not an error), and any other non-200 status is
a fatal error carrying the status code; the failure outcome writes no
state, so the prior declarative state is untouched. -/
theorem claim_C4_read_status (state : RangerPolicyResourceModel)
    (status : Nat) (body : Option Policy) (hid : state.id ≠ none) :
    (status = 404 → readStep state status body = ReadOutcome.removeResource) ∧
    (status ≠ 404 → status ≠ 200 →
      readStep state status body =
        ReadOutcome.failure ("API returned unexpected status code: " ++
          toString status)) := by
  constructor
  · intro h404
    unfold readStep
    simp [hid, h404]
  · intro h404 h200
    unfold readStep
    simp [hid, h404, h200]

/-- Witness for C4: with a stored id, a 404 removes the resource and a
500 produces the fatal status-code error. -/
theorem claim_C4_witness :
    readStep examplePlanWithId 404 none = ReadOutcome.removeResource ∧
    readStep examplePlanWithId 500 none =
      ReadOutcome.failure ("API returned unexpected status code: " ++
        toString (500 : Nat)) :=
  ⟨(claim_C4_read_status examplePlanWithId 404 none (by decide)).1 rfl,
   (claim_C4_read_status examplePlanWithId 500 none (by decide)).2
     (by decide) (by decide)⟩

/-- Claim C8: an update whose stored id string fails `parseInt64` fails
with the locally-detected validation error before any network request is
issued (the outcome is response-independent and writes no state), and
the PUT is issued only when `parseInt64` succeeds. -/
theorem claim_C8_update_parse (plan : RangerPolicyResourceModel)
    (status : Nat) (body : Option Policy) :
    (∀ e, parseInt64 (valueString plan.id) = Except.error e →
      updateStep plan status body =
        (false, UpdateOutcome.validationFailure ("Could not parse policy ID: " ++ e))) ∧
    ((updateStep plan status body).1 = true →
      ∃ n, parseInt64 (valueString plan.id) = Except.ok n) := by
  constructor
  · intro e he
    simp only [updateStep, convertModelToPolicy_snd]
    simp [he]
  · intro hput
    simp only [updateStep, convertModelToPolicy_snd] at hput
    simp only [ne_eq, not_true_eq_false, reduceIte] at hput
    cases hp : parseInt64 (valueString plan.id) with
    | error e => rw [hp] at hput; simp at hput
    | ok n => exact ⟨n, rfl⟩

/-- Witness for C8: an update of a plan whose stored id is `abc` fails
validation without issuing the PUT, whatever the would-be response. -/
theorem claim_C8_witness :
    updateStep exampleBadIdPlan 200 none =
      (false, UpdateOutcome.validationFailure
        ("Could not parse policy ID: " ++ "expected integer")) :=
  (claim_C8_update_parse exampleBadIdPlan 200 none).1 "expected integer" rfl

/-- Claim C5: a rule item with declared permissions `[read, write]`
translates to exactly the accesses `[(read, allowed), (write, allowed)]`;
and in the reverse direction the recovered permission set is exactly the
access-type names whose `isAllowed` flag is true, regardless of the
order of the wire accesses (entries with `isAllowed = false` are
silently excluded). -/
theorem claim_C5_access_translation :
    (∀ it : RangerPolicyItemModel,
      it.permissions = some [some "read", some "write"] →
      (convertPolicyItemModel it).1.accesses =
        some [{ accessType := "read", isAllowed := true },
              { accessType := "write", isAllowed := true }]) ∧
    (∀ (it : PolicyItem) (s : String),
      (some s : TFString) ∈ goList (convertPolicyItem it).1.permissions ↔
      ∃ a ∈ goList it.accesses, a.isAllowed = true ∧ a.accessType = s) := by
  constructor
  · intro it h
    simp [convertPolicyItemModel, h]
  · intro it s
    simp only [convertPolicyItem, goList_some, List.mem_map, List.mem_filter,
      Option.some.injEq]
    constructor
    · rintro ⟨a, ⟨ha, hall⟩, heq⟩
      exact ⟨a, ha, hall, heq⟩
    · rintro ⟨a, ha, hall, heq⟩
      exact ⟨a, ⟨ha, hall⟩, heq⟩

/-- Witness for C5: the read/write item translates to the two allowed
accesses, and the reverse characterisation holds on a wire item whose
accesses arrive out of order with an `isAllowed = false` entry. -/
theorem claim_C5_witness :
    (convertPolicyItemModel examplePermItem).1.accesses =
      some [{ accessType := "read", isAllowed := true },
            { accessType := "write", isAllowed := true }] ∧
    ((some "read" : TFString) ∈ goList (convertPolicyItem exampleWireItem).1.permissions ↔
      ∃ a ∈ goList exampleWireItem.accesses, a.isAllowed = true ∧ a.accessType = "read") :=
  ⟨claim_C5_access_translation.1 examplePermItem rfl,
   claim_C5_access_translation.2 exampleWireItem "read"⟩

/-- Claim C10: declarative→wire translation omits empty list attributes
entirely (nil wire fields, including accesses, and absent
policyItems/denyPolicyItems), while wire→declarative translation always
produces present (never nil) declarative lists. -/
theorem claim_C10_empty_lists :
    (∀ it : RangerPolicyItemModel,
      ((goList it.users).length = 0 → (convertPolicyItemModel it).1.users = none) ∧
      ((goList it.groups).length = 0 → (convertPolicyItemModel it).1.groups = none) ∧
      ((goList it.roles).length = 0 → (convertPolicyItemModel it).1.roles = none) ∧
      ((goList it.permissions).length = 0 →
        (convertPolicyItemModel it).1.accesses = none)) ∧
    (∀ m : RangerPolicyResourceModel,
      ((goList m.policyItems).length = 0 →
        (convertModelToPolicy m).1.policyItems = none) ∧
      ((goList m.denyItems).length = 0 →
        (convertModelToPolicy m).1.denyPolicyItems = none)) ∧
    (∀ it : PolicyItem,
      (convertPolicyItem it).1.users.isSome ∧
      (convertPolicyItem it).1.groups.isSome ∧
      (convertPolicyItem it).1.roles.isSome ∧
      (convertPolicyItem it).1.permissions.isSome ∧
      (convertPolicyItem it).1.conditions.isSome) ∧
    (∀ p : Policy,
      (convertPolicyToModel p).1.resources.isSome ∧
      (convertPolicyToModel p).1.policyItems.isSome ∧
      (convertPolicyToModel p).1.denyItems.isSome) := by
  refine ⟨fun it => ⟨?_, ?_, ?_, ?_⟩, fun m => ⟨?_, ?_⟩, fun it => ?_, fun p => ?_⟩
  · intro h; simp [convertPolicyItemModel, convertStringList, h]
  · intro h; simp [convertPolicyItemModel, convertStringList, h]
  · intro h; simp [convertPolicyItemModel, convertStringList, h]
  · intro h; simp [convertPolicyItemModel, h]
  · intro h; simp [convertModelToPolicy, h]
  · intro h; simp [convertModelToPolicy, h]
  · exact ⟨rfl, rfl, rfl, rfl, rfl⟩
  · exact ⟨rfl, rfl, rfl⟩

/-- Witness for C10: the item with empty/nil list attributes produces nil
wire fields, and the model with no allow/deny items omits both wire item
lists. -/
theorem claim_C10_witness :
    (convertPolicyItemModel exampleEmptyItem).1.users = none ∧
    (convertPolicyItemModel exampleEmptyItem).1.groups = none ∧
    (convertPolicyItemModel exampleEmptyItem).1.roles = none ∧
    (convertPolicyItemModel exampleEmptyItem).1.accesses = none ∧
    (convertModelToPolicy exampleEmptyModel).1.policyItems = none ∧
    (convertModelToPolicy exampleEmptyModel).1.denyPolicyItems = none :=
  ⟨(claim_C10_empty_lists.1 exampleEmptyItem).1 rfl,
   (claim_C10_empty_lists.1 exampleEmptyItem).2.1 rfl,
   (claim_C10_empty_lists.1 exampleEmptyItem).2.2.1 rfl,
   (claim_C10_empty_lists.1 exampleEmptyItem).2.2.2 rfl,
   (claim_C10_empty_lists.2.1 exampleEmptyModel).1 rfl,
   (claim_C10_empty_lists.2.1 exampleEmptyModel).2 rfl⟩

/-- Counterexample to claim C6: `exampleDupModel` declares the component
`path` twice (`/a`, then `/b` with different flags); `convertModelToPolicy`
returns an empty diagnostics collection — no validation error on the
duplicate key — and the wire map holds only the second entry: the first
has been silently overwritten, contradicting the claim that a validation
error is surfaced rather than an overwrite. -/
theorem claim_C6_counterexample :
    (convertModelToPolicy exampleDupModel).2 = [] ∧
    (convertModelToPolicy exampleDupModel).1.resources =
      some [("path", { values := some ["/b"], isExclude := true,
                       isRecursive := false })] :=
  ⟨rfl, rfl⟩

/-- Amended claim C6: when the declarative resource list declares the
same resource-component type more than once, `convertModelToPolicy`
surfaces no diagnostic and silently collapses the duplicates: the wire
map binds each declared type to the conversion of the last declared
entry with that type. -/
theorem claim_C6_amended_overwrite (m : RangerPolicyResourceModel) (t : String) :
    (convertModelToPolicy m).2 = [] ∧
    assocLookup (goList (convertModelToPolicy m).1.resources) t =
      match (goList m.resources).reverse.find?
          (fun r => valueString r.resType = t) with
      | some r => some (convertResourceModel r)
      | none => none := by
  refine ⟨convertModelToPolicy_snd m, ?_⟩
  have hres : (convertModelToPolicy m).1.resources =
      some ((goList m.resources).foldl (fun a res =>
        assocSet a (valueString res.resType) (convertResourceModel res)) []) := rfl
  rw [hres, goList_some, assocLookup_resources_foldl]
  cases (goList m.resources).reverse.find? (fun r => valueString r.resType = t) with
  | some r => rfl
  | none => rfl

/-- Counterexample to claim C7: `exampleCondWireItem` carries a condition
entry of type `c` whose values array holds the string `a` and a
malformed non-string element.  The claim requires the key of an entry
containing malformed non-string values to be omitted, but the
translation keeps key `c` (with the malformed element skipped): the key
is only omitted for the second entry, whose type field is malformed. -/
theorem claim_C7_counterexample :
    goList exampleCondWireItem.conditions =
      [[("type", GoVal.str "c"),
        ("values", GoVal.arr [GoVal.str "a", GoVal.arr []])],
       [("type", GoVal.arr []), ("values", GoVal.arr [GoVal.str "z"])]] ∧
    (convertPolicyItem exampleCondWireItem).1.conditions =
      some [("c", some [some "a"])] :=
  ⟨rfl, rfl⟩

/-- Amended claim C7: wire conditions are flattened entry by entry into
the declarative mapping; an entry whose type field is not a string or
whose values field is not an array is skipped entirely (its key is
omitted); for a well-formed entry, malformed non-string elements of the
values array are skipped but the key is still recorded, bound to exactly
the string elements (possibly an empty list). -/
theorem claim_C7_amended_conditions :
    (∀ item : PolicyItem,
      (convertPolicyItem item).1.conditions =
        some ((goList item.conditions).foldl stepCond [])) ∧
    (∀ (acc : List (String × GoSlice TFString)) (condition : CondMap)
        (condType : String) (condValues : List GoVal),
      (assocLookup condition "type").bind GoVal.toStr = some condType →
      (assocLookup condition "values").bind GoVal.toArr = some condValues →
      stepCond acc condition =
        assocSet acc condType
          (some ((condValues.filterMap GoVal.toStr).map
            (fun s => (some s : TFString))))) ∧
    (∀ (acc : List (String × GoSlice TFString)) (condition : CondMap),
      ((assocLookup condition "type").bind GoVal.toStr = none ∨
       (assocLookup condition "values").bind GoVal.toArr = none) →
      stepCond acc condition = acc) := by
  refine ⟨fun item => rfl, ?_, ?_⟩
  · intro acc condition condType condValues ht hv
    unfold stepCond
    rw [ht, hv, List.map_filterMap]
  · rintro acc condition (ht | hv)
    · unfold stepCond
      rw [ht]
    · unfold stepCond
      cases hty : (assocLookup condition "type").bind GoVal.toStr with
      | none => rfl
      | some t => rw [hv]

/-- Witness for C7 (amended): on the well-formed entry of
`exampleCondWireItem` the key `c` is recorded with exactly the string
elements, and the entry with a malformed type field is skipped. -/
theorem claim_C7_witness :
    stepCond [] [("type", GoVal.str "c"),
                 ("values", GoVal.arr [GoVal.str "a", GoVal.arr []])] =
      assocSet [] "c"
        (some (([GoVal.str "a", GoVal.arr []].filterMap GoVal.toStr).map
          (fun s => (some s : TFString)))) ∧
    stepCond [] [("type", GoVal.arr []),
                 ("values", GoVal.arr [GoVal.str "z"])] = [] :=
  ⟨claim_C7_amended_conditions.2.1 [] _ "c" [GoVal.str "a", GoVal.arr []] rfl rfl,
   claim_C7_amended_conditions.2.2 [] _ (Or.inl rfl)⟩

/-! ## Round-trip helper lemmas (for claim C1) -/

theorem some_valueString (s : TFString) (h : s.isSome = true) :
    some (valueString s) = s := by
  cases s with
  | none => simp at h
  | some v => rfl

theorem some_valueBool (b : TFBool) (h : b.isSome = true) :
    some (valueBool b) = b := by
  cases b with
  | none => simp at h
  | some v => rfl

theorem some_valueInt64 (i : TFInt) (h : i.isSome = true) :
    some (valueInt64 i) = i := by
  cases i with
  | none => simp at h
  | some v => rfl

theorem map_some_valueString (l : List TFString) (h : l.all Option.isSome = true) :
    l.map (fun x => (some (valueString x) : TFString)) = l := by
  induction l with
  | nil => rfl
  | cons x rest ih =>
    simp only [List.all_cons, Bool.and_eq_true] at h
    cases x with
    | none => simp at h
    | some s => simp only [List.map_cons, valueString_some, ih h.2]

theorem convertStringList_roundtrip (xs : GoSlice TFString)
    (h : (goList xs).all Option.isSome = true) :
    (goList (convertStringList xs)).map (fun u => (some u : TFString)) =
      goList xs := by
  unfold convertStringList
  by_cases h0 : 0 < (goList xs).length
  · rw [if_pos h0, goList_some, List.map_map]
    exact map_some_valueString _ h
  · rw [if_neg h0, goList_none,
      List.length_eq_zero.mp (Nat.eq_zero_of_not_pos h0)]
    rfl

theorem permissions_roundtrip (ps : GoSlice TFString)
    (h : (goList ps).all Option.isSome = true) :
    ((goList (if 0 < (goList ps).length then
        some ((goList ps).map (fun perm =>
          ({ accessType := valueString perm, isAllowed := true } : Access)))
        else none)).filter (fun a => a.isAllowed)).map
      (fun a => (some a.accessType : TFString)) = goList ps := by
  by_cases h0 : 0 < (goList ps).length
  · rw [if_pos h0, goList_some,
      List.filter_eq_self.mpr (fun a ha => by
        rcases List.mem_map.mp ha with ⟨p, -, rfl⟩
        rfl),
      List.map_map]
    exact map_some_valueString _ h
  · rw [if_neg h0, goList_none,
      List.length_eq_zero.mp (Nat.eq_zero_of_not_pos h0)]
    rfl

/-- Per-item round trip: on a fully specified rule item with no declared
conditions, wire→declarative after declarative→wire restores the item up
to nil/empty-slice normalisation. -/
theorem normItem_roundtrip (it : RangerPolicyItemModel)
    (hk : itemKnown it = true) (hc : goList it.conditions = []) :
    normItem (convertPolicyItem (convertPolicyItemModel it).1).1 = normItem it := by
  unfold itemKnown at hk
  simp only [Bool.and_eq_true] at hk
  obtain ⟨⟨⟨⟨hu, hg⟩, hr⟩, hp⟩, hd⟩ := hk
  unfold normItem convertPolicyItem convertPolicyItemModel
  simp only [goList_some, Prod.mk.injEq]
  refine ⟨?_, ?_, ?_, ?_, ?_, ?_⟩
  · exact convertStringList_roundtrip it.users hu
  · exact convertStringList_roundtrip it.groups hg
  · exact convertStringList_roundtrip it.roles hr
  · exact permissions_roundtrip it.permissions hp
  · exact some_valueBool it.delegateAdmin hd
  · rw [hc]
    rfl

/-- Per-resource round trip: for a fully specified declared resource, the
wire map entry keyed by the declared type converts back to the declared
record up to nil/empty-slice normalisation. -/
theorem normRes_roundtrip (r : RangerPolicyResourcesModel)
    (h : resourceKnown r = true) :
    normRes (convertResourceEntry
      (valueString r.resType, convertResourceModel r)) = normRes r := by
  unfold resourceKnown at h
  simp only [Bool.and_eq_true] at h
  obtain ⟨⟨⟨ht, hv⟩, he⟩, hre⟩ := h
  unfold normRes convertResourceEntry convertResourceModel
  simp only [goList_some, Prod.mk.injEq]
  refine ⟨some_valueString r.resType ht, ?_,
    some_valueBool r.isExclude he, some_valueBool r.isRecursive hre⟩
  rw [List.map_map]
  exact map_some_valueString _ hv

theorem assocSet_append {α : Type} (l : List (String × α)) (k : String) (v : α)
    (h : k ∉ l.map Prod.fst) :
    assocSet l k v = l ++ [(k, v)] := by
  induction l with
  | nil => rfl
  | cons p rest ih =>
    obtain ⟨k₀, v₀⟩ := p
    simp only [List.map_cons, List.mem_cons] at h
    push_neg at h
    rw [assocSet, if_neg (fun hh => h.1 hh.symm), ih h.2]
    rfl

/-- With no duplicate declared types, the resources fold writes exactly
one fresh map entry per declared resource, in declaration order. -/
theorem foldl_assocSet_nodup (rs : List RangerPolicyResourcesModel)
    (acc : List (String × PolicyResources))
    (hn : (rs.map (fun r => valueString r.resType)).Nodup)
    (hd : ∀ r ∈ rs, valueString r.resType ∉ acc.map Prod.fst) :
    rs.foldl (fun a res =>
        assocSet a (valueString res.resType) (convertResourceModel res)) acc =
      acc ++ rs.map (fun r => (valueString r.resType, convertResourceModel r)) := by
  induction rs generalizing acc with
  | nil => simp
  | cons r rest ih =>
    simp only [List.map_cons, List.nodup_cons] at hn
    rw [List.foldl_cons, assocSet_append acc _ _ (hd r (by simp)),
      ih (acc ++ [(valueString r.resType, convertResourceModel r)]) hn.2 ?_]
    · simp
    · intro r' hr'
      simp only [List.map_append, List.mem_append, List.map_cons,
        List.map_nil, List.mem_singleton]
      push_neg
      refine ⟨hd r' (by simp [hr']), ?_⟩
      intro heq
      exact hn.1 (heq ▸ List.mem_map_of_mem (fun r => valueString r.resType) hr')

/-! ### Definitional field unfoldings of the round trip -/

theorem rt_name (m : RangerPolicyResourceModel) :
    (convertPolicyToModel (convertModelToPolicy m).1).1.name =
      some (valueString m.name) := rfl

theorem rt_service (m : RangerPolicyResourceModel) :
    (convertPolicyToModel (convertModelToPolicy m).1).1.service =
      some (valueString m.service) := rfl

theorem rt_description (m : RangerPolicyResourceModel) :
    (convertPolicyToModel (convertModelToPolicy m).1).1.description =
      some (if m.description ≠ none then valueString m.description else "") := rfl

theorem rt_isEnabled (m : RangerPolicyResourceModel) :
    (convertPolicyToModel (convertModelToPolicy m).1).1.isEnabled =
      some (valueBool m.isEnabled) := rfl

theorem rt_isAuditEnabled (m : RangerPolicyResourceModel) :
    (convertPolicyToModel (convertModelToPolicy m).1).1.isAuditEnabled =
      some (valueBool m.isAuditEnabled) := rfl

theorem rt_policyType (m : RangerPolicyResourceModel) :
    (convertPolicyToModel (convertModelToPolicy m).1).1.policyType =
      some (valueInt64 m.policyType) := rfl

theorem rt_resources (m : RangerPolicyResourceModel) :
    (convertPolicyToModel (convertModelToPolicy m).1).1.resources =
      some (((goList m.resources).foldl (fun a res =>
        assocSet a (valueString res.resType) (convertResourceModel res)) []).map
          convertResourceEntry) := rfl

theorem rt_policyItems (m : RangerPolicyResourceModel) :
    (convertPolicyToModel (convertModelToPolicy m).1).1.policyItems =
      some (((goList (if 0 < (goList m.policyItems).length then
          some (((goList m.policyItems).map convertPolicyItemModel).map Prod.fst)
        else none)).map convertPolicyItem).map Prod.fst) := rfl

theorem rt_denyItems (m : RangerPolicyResourceModel) :
    (convertPolicyToModel (convertModelToPolicy m).1).1.denyItems =
      some (((goList (if 0 < (goList m.denyItems).length then
          some (((goList m.denyItems).map convertPolicyItemModel).map Prod.fst)
        else none)).map convertPolicyItem).map Prod.fst) := rfl

/-- The item-list leg of the round trip, shared by allow and deny items. -/
theorem items_roundtrip (items : GoSlice RangerPolicyItemModel)
    (hk : (goList items).all itemKnown = true)
    (hc : (goList items).all (fun it => (goList it.conditions).isEmpty) = true) :
    ((((goList (if 0 < (goList items).length then
        some (((goList items).map convertPolicyItemModel).map Prod.fst)
      else none)).map convertPolicyItem).map Prod.fst)).map normItem =
      (goList items).map normItem := by
  by_cases h0 : 0 < (goList items).length
  · rw [if_pos h0, goList_some]
    simp only [List.map_map]
    refine List.map_congr_left (fun it hit => ?_)
    exact normItem_roundtrip it (List.all_eq_true.mp hk it hit)
      (List.isEmpty_iff.mp (List.all_eq_true.mp hc it hit))
  · rw [if_neg h0, goList_none,
      List.length_eq_zero.mp (Nat.eq_zero_of_not_pos h0)]
    rfl

/-- Counterexample to claim C1: `exampleConditionModel` is a valid
declarative policy (no duplicate declared resource types, third
conjunct) whose single allow rule declares the condition key `where`.
After declarative→wire (`convertModelToPolicy`) followed by
wire→declarative (`convertPolicyToModel`), the rule's condition mapping
is empty — the key `where` is lost, so the result is not set-equal to
the input on the conditions field.  (The forward direction stores the
condition values as a Go `[]string` inside `interface \x7b\x7d`, which the
reverse direction's `[]interface \x7b\x7d` type assertion rejects.) -/
theorem claim_C1_counterexample :
    ((goList exampleConditionModel.policyItems).map
      (fun it => (goList it.conditions).map Prod.fst)) = [["where"]] ∧
    ((goList (convertPolicyToModel
        (convertModelToPolicy exampleConditionModel).1).1.policyItems).map
      (fun it => (goList it.conditions).map Prod.fst)) = [[]] ∧
    ((goList exampleConditionModel.resources).map
      (fun r => valueString r.resType)).Nodup :=
  ⟨rfl, rfl, by decide⟩

/-- Amended claim C1: for every valid declarative policy P (no duplicate
declared resource types) that is additionally fully specified (no null
scalar attributes, resource fields or principal/permission elements) and
declares no rule conditions, translating declarative→wire with
`convertModelToPolicy` and then wire→declarative with
`convertPolicyToModel` yields a model set-equal to P on every field
(name, service, description, flags, policy type, resources, allow items,
deny items, conditions), up to the ordering of resource entries, which
is unordered by contract.  (Null scalars round-trip to zero values, and
non-empty conditions are dropped — see the counterexample — which is
what forces the extra hypotheses.) -/
theorem claim_C1_amended_roundtrip (m : RangerPolicyResourceModel)
    (hdup : ((goList m.resources).map (fun r => valueString r.resType)).Nodup)
    (hknown : modelKnown m = true) (hnc : modelNoConditions m = true) :
    roundtripAgrees m := by
  unfold modelKnown at hknown
  simp only [Bool.and_eq_true] at hknown
  obtain ⟨⟨⟨⟨⟨⟨⟨⟨hn, hs⟩, hde⟩, he⟩, ha⟩, hpt⟩, hres⟩, hpi⟩, hdi⟩ := hknown
  unfold modelNoConditions at hnc
  simp only [Bool.and_eq_true] at hnc
  unfold roundtripAgrees
  refine ⟨?_, ?_, ?_, ?_, ?_, ?_, ?_, ?_, ?_⟩
  · rw [rt_name]; exact some_valueString m.name hn
  · rw [rt_service]; exact some_valueString m.service hs
  · rw [rt_description]
    cases hd : m.description with
    | none => rw [hd] at hde; simp at hde
    | some d => simp [hd]
  · rw [rt_isEnabled]; exact some_valueBool m.isEnabled he
  · rw [rt_isAuditEnabled]; exact some_valueBool m.isAuditEnabled ha
  · rw [rt_policyType]; exact some_valueInt64 m.policyType hpt
  · rw [rt_resources, goList_some,
      foldl_assocSet_nodup (goList m.resources) [] hdup (by simp)]
    rw [List.nil_append]
    simp only [List.map_map]
    have heq : (goList m.resources).map
        (normRes ∘ convertResourceEntry ∘
          (fun r => (valueString r.resType, convertResourceModel r))) =
        (goList m.resources).map normRes :=
      List.map_congr_left (fun r hr =>
        normRes_roundtrip r (List.all_eq_true.mp hres r hr))
    rw [heq]
  · rw [rt_policyItems, goList_some]
    exact items_roundtrip m.policyItems hpi hnc.1
  · rw [rt_denyItems, goList_some]
    exact items_roundtrip m.denyItems hdi hnc.2

/-- Witness for C1 (amended): `examplePlan` satisfies all three
hypotheses and round-trips set-equal to itself. -/
theorem claim_C1_witness :
    (((goList examplePlan.resources).map (fun r => valueString r.resType)).Nodup ∧
      modelKnown examplePlan = true ∧ modelNoConditions examplePlan = true) ∧
    roundtripAgrees examplePlan :=
  ⟨⟨by decide, by decide, by decide⟩,
   claim_C1_amended_roundtrip examplePlan (by decide) (by decide) (by decide)⟩

end Ranger
